import Mathlib

/-!
# CloudWatch Logs actions (`pkg/tsdb/cloudwatch/log_actions.go`)

A shallow embedding of the log-action dispatcher and its five handlers.

* Go functions returning `(*T, error)` return a pair `Option T × Option GoError`
  (`none` is Go's `nil`), wrapped in `Go`, which adds the run-time panics of a
  failed type assertion and of a nil dereference.
* The logs client is an interface: it is a record of functions over an explicit
  remote state `σ`.  Every client call is appended to the `calls` log of the
  `World`, so that "no remote call is made" is a statement about that log.
* Library code that the handlers call (the AWS SDK error type, `fmt`, the frame
  constructors of the plugin SDK) is modelled after the libraries; code of the
  repository that is not part of these two files (`simplejson`, `tsdb`,
  `logsResultsToDataframes`) is modelled from the specification or taken as a
  parameter, as said at each definition.
-/

namespace CloudWatch

/-! ## Go run-time model -/

/-- Run-time panics the handlers can raise. -/
inductive Panic
  /-- A type assertion `err.(awserr.Error)` on a nil interface value or on an
  error whose dynamic type does not implement `awserr.Error`. -/
  | interfaceConversion
  /-- A method call on a nil interface value or a dereference of a nil pointer. -/
  | nilDereference
  deriving DecidableEq, Repr

/-- Result of running a Go function body: it returns, or it panics. -/
inductive Go (α : Type)
  | ret (a : α)
  | panics (p : Panic)
  deriving DecidableEq, Repr

/-- An `awserr.Error` of the AWS SDK: `Code()`, `Message()` and the text that
`Error()` appends after `code: message` (request id, status code, cause);
`tail` is empty for `awserr.New(code, message, nil)`. -/
structure AwsError where
  code : String
  message : String
  tail : String
  deriving DecidableEq, Repr

/-- The SDK's `Error()` text, `SprintError`: the code, a colon, the message, then
what the SDK appends. -/
def AwsError.Error (a : AwsError) : String :=
  a.code ++ ": " ++ a.message ++ a.tail

/-- The SDK's `awserr.New(code, message, nil)`. -/
def awserr.New (code message : String) : AwsError :=
  { code := code, message := message, tail := "" }

/-- A non-nil Go `error` value, by its dynamic type: an `awserr.Error`, or an
error that has no `Code`/`Message` methods (what `fmt.Errorf` and `errors.New`
build), given by its text. -/
inductive GoError
  | aws (a : AwsError)
  | plain (text : String)
  deriving DecidableEq, Repr

/-- The text of an error, Go's `err.Error()`. -/
def GoError.Error : GoError → String
  | .aws a => a.Error
  | .plain text => text

/-- The type assertion `err.(awserr.Error)` in its one-result form: it panics
on a nil interface and on an error that is not an `awserr.Error`. -/
def assertAwsError : Option GoError → Go AwsError
  | some (.aws a) => .ret a
  | some (.plain _) => .panics .interfaceConversion
  | none => .panics .interfaceConversion

/-- The type assertion `awsErr, _ := err.(awserr.Error)` in its two-result form:
no panic, a nil interface when the assertion fails. -/
def assertAwsErrorOk : Option GoError → Option AwsError
  | some (.aws a) => some a
  | _ => none

/-! ## `fmt` with no operands

`fmt.Errorf(msg)` is called with the message as the format string and no
operand.  `doPrintf` follows the scanner of Go's `fmt` for an empty operand
list: text is copied, `%%` writes a percent sign, and every other directive
writes one of the `%!` error markers. -/

namespace fmt

/-- The flag characters that may follow `%`. -/
def isFlag (c : Char) : Bool :=
  c == '#' || c == '0' || c == '+' || c == '-' || c == ' '

/-- Skip the flags of a directive. -/
def skipFlags : List Char → List Char
  | [] => []
  | c :: cs => if isFlag c then skipFlags cs else c :: cs

/-- Go's `parsenum`: read a decimal number; the result says whether a digit was
read and gives the text after it.  A number past 10^6 gives up and skips to the
end of the text. -/
def parsenum : List Char → Nat → Bool → Bool × List Char
  | [], _, isnum => (isnum, [])
  | c :: cs, num, isnum =>
    if c.isDigit then
      if num > 1000000 then (false, [])
      else parsenum cs (num * 10 + (c.toNat - 48)) true
    else (isnum, c :: cs)

/-- Split at the first closing bracket: the text before it and the text after. -/
def splitAtBracket : List Char → Option (List Char × List Char)
  | [] => none
  | c :: cs =>
    if c == ']' then some ([], cs)
    else (splitAtBracket cs).map (fun p => (c :: p.1, p.2))

/-- Go's `argNumber` with no operand: an explicit argument index `[n]` is
skipped and always out of range.  Returns the remaining text, whether a
well-formed index was found, and whether the argument number became bad. -/
def argNumber (cs : List Char) : List Char × Bool × Bool :=
  match cs with
  | '[' :: rest =>
    if cs.length < 3 then (rest, false, true)
    else
      match splitAtBracket rest with
      | none => (rest, false, true)
      | some (between, after) =>
        (after, (parsenum between 0 false).1 && (parsenum between 0 false).2.isEmpty, true)
  | _ => (cs, false, false)

/-- The width of a directive, read after the flags and a first argument index
`a1`: what it writes, the text after it, whether an argument index came right
before, and whether the argument number is bad.  A `*` width has no operand to
read. -/
def width (a1 : List Char × Bool × Bool) : List Char × List Char × Bool × Bool :=
  match a1.1 with
  | '*' :: r => ("%!(BADWIDTH)".data, r, false, a1.2.2)
  | r => ([], (parsenum r 0 false).2, a1.2.1, a1.2.2 || (a1.2.1 && (parsenum r 0 false).1))

/-- The precision of a directive, read after the width `w`: the same four
results.  A `*` precision has no operand to read. -/
def precision (w : List Char × List Char × Bool × Bool) :
    List Char × List Char × Bool × Bool :=
  match w.2.1 with
  | '.' :: r =>
    match (argNumber r).1 with
    | '*' :: r2 => ("%!(BADPREC)".data, r2, false, w.2.2.2 || w.2.2.1 || (argNumber r).2.2)
    | r2 =>
      ([], (parsenum r2 0 false).2, (argNumber r).2.1,
        w.2.2.2 || w.2.2.1 || (argNumber r).2.2)
  | r => ([], r, w.2.2.1, w.2.2.2)

/-- The argument index that may stand right before the verb, read after the
precision `q` unless an index came right before: the text after it and whether
the argument number is bad. -/
def lastIndex (q : List Char × List Char × Bool × Bool) : List Char × Bool :=
  if q.2.2.1 then (q.2.1, q.2.2.2)
  else ((argNumber q.2.1).1, q.2.2.2 || (argNumber q.2.1).2.2)

/-- One directive, the text after a `%`: what it writes and the text that
follows it. -/
def directive (cs : List Char) : List Char × List Char :=
  let w := width (argNumber (skipFlags cs))
  let q := precision w
  match (lastIndex q).1 with
  | [] => (w.1 ++ q.1 ++ "%!(NOVERB)".data, [])
  | verb :: rest =>
    if verb == '%' then (w.1 ++ q.1 ++ ['%'], rest)
    else if (lastIndex q).2 then
      (w.1 ++ q.1 ++ "%!".data ++ [verb] ++ "(BADINDEX)".data, rest)
    else (w.1 ++ q.1 ++ "%!".data ++ [verb] ++ "(MISSING)".data, rest)

/-- Go's `doPrintf` with no operand; the first argument bounds the number of
steps, each of which consumes at least one character. -/
def doPrintf : Nat → List Char → List Char
  | 0, _ => []
  | _, [] => []
  | n + 1, c :: cs =>
    if c == '%' then (directive cs).1 ++ doPrintf n (directive cs).2
    else c :: doPrintf n cs

/-- Go's `fmt.Sprintf(format)` with no operand. -/
def Sprintf (format : String) : String :=
  String.mk (doPrintf format.length format.data)

/-- Go's `fmt.Errorf(format)` with no operand: an `errors.New` error (it has no
`Code` or `Message` method) whose text is the formatted string. -/
def Errorf (format : String) : GoError :=
  .plain (Sprintf format)

end fmt

/-! ## JSON parameters, time range, frames -/

/-- Modelled from the spec: the JSON parameter object of a request
(`simplejson.Json` of the repository, whose file is not among the sources).
Numbers are the integer-valued ones. -/
inductive Json
  | null
  | bool (b : Bool)
  | number (n : Int)
  | string (s : String)
  | array (xs : List Json)
  | object (fields : List (String × Json))

/-- Modelled from the spec: `simplejson`'s `Get(key)`, the parameter stored
under `key`, and the null value when there is none. -/
def Json.Get (j : Json) (key : String) : Json :=
  match j with
  | .object fields => (fields.lookup key).getD .null
  | _ => .null

/-- Modelled from the spec: `simplejson`'s `MustString(def)`, the string held,
and the default when the parameter is absent or not a string
(`MustString()` has the default `""`). -/
def Json.MustString (j : Json) (d : String) : String :=
  match j with
  | .string s => s
  | _ => d

/-- Modelled from the spec: `simplejson`'s `MustInt64(def)`, the number held,
and the default when the parameter is absent or not a number
(`MustInt64()` has the default `0`). -/
def Json.MustInt64 (j : Json) (d : Int) : Int :=
  match j with
  | .number n => n
  | _ => d

/-- Modelled from the spec: `simplejson`'s `MustStringArray()`, the strings of
an array parameter (a null element reads as `""`), and the empty list when the
parameter is absent, not an array, or holds an element that is not a string. -/
def Json.MustStringArray (j : Json) : List String :=
  match j with
  | .array xs =>
    (xs.mapM (fun (a : Json) => match a with
        | .null => some ""
        | .string s => some s
        | _ => none)).getD []
  | _ => []

/-- An instant, in nanoseconds since the Unix epoch (Go's `time.Time`). -/
structure Time where
  nanos : Int
  deriving DecidableEq, Repr

/-- Go's `t.Before(u)`. -/
def Time.Before (t u : Time) : Bool := decide (t.nanos < u.nanos)

/-- Go's `t.Unix()`: whole seconds since the epoch, rounded down. -/
def Time.Unix (t : Time) : Int := Int.fdiv t.nanos 1000000000

/-- Modelled from the spec: the externally supplied time range of a batch
(`tsdb.TimeRange` of the repository, whose file is not among the sources),
given by what its two parsers return: an instant or an error. -/
structure TimeRange where
  parsedFrom : Except GoError Time
  parsedTo : Except GoError Time

/-- Modelled from the spec: `tsdb.TimeRange.ParseFrom`, the parsed start. -/
def TimeRange.ParseFrom (tr : TimeRange) : Except GoError Time := tr.parsedFrom

/-- Modelled from the spec: `tsdb.TimeRange.ParseTo`, the parsed end. -/
def TimeRange.ParseTo (tr : TimeRange) : Except GoError Time := tr.parsedTo

/-- The value vector of a frame field, by the Go slice type it was built from. -/
inductive FieldValues
  | nullableString (xs : List (Option String))
  | string (xs : List String)
  | bool (xs : List Bool)
  | nullableInt64 (xs : List (Option Int))
  deriving DecidableEq, Repr

/-- A column of a frame (`data.Field`); the handlers give no labels. -/
structure Field where
  Name : String
  Values : FieldValues
  deriving DecidableEq, Repr

/-- A frame (`data.Frame`). -/
structure Frame where
  Name : String
  RefID : String
  Fields : List Field
  deriving DecidableEq, Repr

/-- The plugin SDK's `data.NewField(name, nil, values)`. -/
def data.NewField (name : String) (values : FieldValues) : Field :=
  { Name := name, Values := values }

/-- The plugin SDK's `data.NewFrame(name, fields...)`; the `RefID` starts empty. -/
def data.NewFrame (name : String) (fields : List Field) : Frame :=
  { Name := name, RefID := "", Fields := fields }

/-! ## AWS SDK shapes and the logs client

Pointer fields of the SDK structures are `Option`s, and the element pointers of
the SDK's slices are `Option`s too: the handlers dereference them. -/

/-- The SDK's `aws.Int64`: a pointer to the value. -/
def aws.Int64 (n : Int) : Option Int := some n

/-- The SDK's `aws.Bool`: a pointer to the value. -/
def aws.Bool (b : Bool) : Option Bool := some b

/-- The SDK's `aws.StringSlice`: pointers to the values. -/
def aws.StringSlice (ss : List String) : List (Option String) := ss.map some

/-- The SDK's `aws.String`: a pointer to the value. -/
def aws.String (s : String) : Option String := some s

structure DescribeLogGroupsInput where
  Limit : Option Int
  LogGroupNamePrefix : Option String
  deriving DecidableEq, Repr

structure LogGroup where
  LogGroupName : Option String
  deriving DecidableEq, Repr

structure DescribeLogGroupsOutput where
  LogGroups : List (Option LogGroup)
  deriving DecidableEq, Repr

structure GetLogGroupFieldsInput where
  LogGroupName : Option String
  Time : Option Int
  deriving DecidableEq, Repr

structure LogGroupField where
  Name : Option String
  Percent : Option Int
  deriving DecidableEq, Repr

structure GetLogGroupFieldsOutput where
  LogGroupFields : List (Option LogGroupField)
  deriving DecidableEq, Repr

structure StartQueryInput where
  StartTime : Option Int
  EndTime : Option Int
  Limit : Option Int
  LogGroupNames : List (Option String)
  QueryString : Option String
  deriving DecidableEq, Repr

structure StartQueryOutput where
  QueryId : Option String
  deriving DecidableEq, Repr

structure StopQueryInput where
  QueryId : Option String
  deriving DecidableEq, Repr

structure StopQueryOutput where
  Success : Option Bool
  deriving DecidableEq, Repr

structure GetQueryResultsInput where
  QueryId : Option String
  deriving DecidableEq, Repr

structure ResultField where
  Field : Option String
  Value : Option String
  deriving DecidableEq, Repr

/-- The job counters of a result; `float64` in the SDK, carried here as
integers (no handler of this file reads them). -/
structure QueryStatistics where
  BytesScanned : Option Int
  RecordsMatched : Option Int
  RecordsScanned : Option Int
  deriving DecidableEq, Repr

structure GetQueryResultsOutput where
  Results : List (List (Option ResultField))
  Statistics : Option QueryStatistics
  Status : Option String
  deriving DecidableEq, Repr

/-- A call made to the logs client, with the request sent. -/
inductive Call
  | DescribeLogGroups (input : DescribeLogGroupsInput)
  | GetLogGroupFields (input : GetLogGroupFieldsInput)
  | StartQuery (input : StartQueryInput)
  | StopQuery (input : StopQueryInput)
  | GetQueryResults (input : GetQueryResultsInput)
  deriving DecidableEq, Repr

/-- The logs client (`cloudwatchlogsiface.CloudWatchLogsAPI`, the five methods
used): each method answers a request in a remote state `σ` with an output
pointer and an error, either of which may be nil, and a new remote state. -/
structure LogsClient (σ : Type) where
  DescribeLogGroups :
    DescribeLogGroupsInput → σ → (Option DescribeLogGroupsOutput × Option GoError) × σ
  GetLogGroupFields :
    GetLogGroupFieldsInput → σ → (Option GetLogGroupFieldsOutput × Option GoError) × σ
  StartQuery : StartQueryInput → σ → (Option StartQueryOutput × Option GoError) × σ
  StopQuery : StopQueryInput → σ → (Option StopQueryOutput × Option GoError) × σ
  GetQueryResults :
    GetQueryResultsInput → σ → (Option GetQueryResultsOutput × Option GoError) × σ

/-- The remote state together with the log of the client calls made so far. -/
structure World (σ : Type) where
  remote : σ
  calls : List Call

/-- `e.logsClient.DescribeLogGroups(input)`, logged. -/
def LogsClient.callDescribeLogGroups {σ : Type} (c : LogsClient σ)
    (input : DescribeLogGroupsInput) (w : World σ) :
    (Option DescribeLogGroupsOutput × Option GoError) × World σ :=
  ((c.DescribeLogGroups input w.remote).1,
    { remote := (c.DescribeLogGroups input w.remote).2,
      calls := w.calls ++ [Call.DescribeLogGroups input] })

/-- `e.logsClient.GetLogGroupFields(input)`, logged. -/
def LogsClient.callGetLogGroupFields {σ : Type} (c : LogsClient σ)
    (input : GetLogGroupFieldsInput) (w : World σ) :
    (Option GetLogGroupFieldsOutput × Option GoError) × World σ :=
  ((c.GetLogGroupFields input w.remote).1,
    { remote := (c.GetLogGroupFields input w.remote).2,
      calls := w.calls ++ [Call.GetLogGroupFields input] })

/-- `e.logsClient.StartQuery(input)`, logged. -/
def LogsClient.callStartQuery {σ : Type} (c : LogsClient σ)
    (input : StartQueryInput) (w : World σ) :
    (Option StartQueryOutput × Option GoError) × World σ :=
  ((c.StartQuery input w.remote).1,
    { remote := (c.StartQuery input w.remote).2,
      calls := w.calls ++ [Call.StartQuery input] })

/-- `e.logsClient.StopQuery(input)`, logged. -/
def LogsClient.callStopQuery {σ : Type} (c : LogsClient σ)
    (input : StopQueryInput) (w : World σ) :
    (Option StopQueryOutput × Option GoError) × World σ :=
  ((c.StopQuery input w.remote).1,
    { remote := (c.StopQuery input w.remote).2,
      calls := w.calls ++ [Call.StopQuery input] })

/-- `e.logsClient.GetQueryResults(input)`, logged. -/
def LogsClient.callGetQueryResults {σ : Type} (c : LogsClient σ)
    (input : GetQueryResultsInput) (w : World σ) :
    (Option GetQueryResultsOutput × Option GoError) × World σ :=
  ((c.GetQueryResults input w.remote).1,
    { remote := (c.GetQueryResults input w.remote).2,
      calls := w.calls ++ [Call.GetQueryResults input] })

/-- The test double of `logs_client_mock.go`: fixed answers, no state. -/
def FakeLogsClient : LogsClient Unit where
  DescribeLogGroups := fun _ u =>
    ((some { LogGroups := [
        some { LogGroupName := aws.String "group_a" },
        some { LogGroupName := aws.String "group_b" },
        some { LogGroupName := aws.String "group_c" }] }, none), u)
  GetLogGroupFields := fun _ u =>
    ((some { LogGroupFields := [
        some { Name := aws.String "field_a", Percent := aws.Int64 100 },
        some { Name := aws.String "field_b", Percent := aws.Int64 30 },
        some { Name := aws.String "field_c", Percent := aws.Int64 55 }] }, none), u)
  StartQuery := fun _ u =>
    ((some { QueryId := aws.String "abcd-efgh-ijkl-mnop" }, none), u)
  StopQuery := fun _ u =>
    ((some { Success := aws.Bool true }, none), u)
  GetQueryResults := fun _ u =>
    ((some {
        Results := [
          [ some { Field := aws.String "@timestamp", Value := aws.String "1584700643" },
            some { Field := aws.String "field_b", Value := aws.String "b_1" },
            some { Field := aws.String "@ptr", Value := aws.String "abcdefg" } ],
          [ some { Field := aws.String "@timestamp", Value := aws.String "1584700843" },
            some { Field := aws.String "field_b", Value := aws.String "b_2" },
            some { Field := aws.String "@ptr", Value := aws.String "hijklmnop" } ] ],
        Statistics := some {
          BytesScanned := some 512, RecordsMatched := some 256, RecordsScanned := some 1024 },
        Status := aws.String "Complete" }, none), u)

/-- The executor: the handlers use its logs client only. -/
structure CloudWatchExecutor (σ : Type) where
  logsClient : LogsClient σ

/-- Functions the code calls whose bodies are not among the sources, taken as
parameters: the plugin SDK's Arrow encoder `data.MarshalArrow` (bytes and an
error) and the repository's frame builder `logsResultsToDataframes` (it may
return a nil frame, or panic). -/
structure Deps where
  MarshalArrow : Frame → List Nat × Option GoError
  logsResultsToDataframes : Option GetQueryResultsOutput → Go (Option Frame)

/-- Modelled from the spec: a request of a batch (`tsdb.Query` of the
repository, whose file is not among the sources): a reference id and the JSON
parameters, which hold the action tag under `subtype`. -/
structure Query where
  RefId : String
  Model : Json

/-- Modelled from the spec: a batch (`tsdb.TsdbQuery`): the time range and the
sequence of requests. -/
structure TsdbQuery where
  TimeRange : TimeRange
  Queries : List Query

/-- Modelled from the spec: the result stored for one reference id
(`tsdb.QueryResult`): the reference id and the encoded frames. -/
structure QueryResult where
  RefId : String
  Dataframes : List (List Nat)
  deriving DecidableEq, Repr

/-- A Go `map[string]*tsdb.QueryResult`: at most one entry per key. -/
abbrev ResultMap := List (String × QueryResult)

/-- The assignment `m[k] = v`: the entry of `k` is replaced. -/
def ResultMap.set (m : ResultMap) (k : String) (v : QueryResult) : ResultMap :=
  (k, v) :: m.filter (fun p => p.1 != k)

/-- The lookup `m[k]`. -/
def ResultMap.get? (m : ResultMap) (k : String) : Option QueryResult :=
  m.lookup k

/-- The keys of the map. -/
def ResultMap.keys (m : ResultMap) : List String :=
  m.map Prod.fst

/-- Modelled from the spec: the batch response (`tsdb.Response`): the results
keyed by reference id. -/
structure Response where
  Results : ResultMap
  deriving DecidableEq, Repr

/-! ## The handlers -/

/-- What a handler returns: a frame pointer and an error, or a panic; and the
world it leaves. -/
abbrev Handled (σ : Type) := Go (Option Frame × Option GoError) × World σ

/-- The loop of `handleDescribeLogGroups` over `response.LogGroups`: the name
pointer of each group is appended; a nil group pointer is dereferenced. -/
def collectLogGroupNames :
    List (Option LogGroup) → List (Option String) → Go (List (Option String))
  | [], logGroupNames => .ret logGroupNames
  | none :: _, _ => .panics .nilDereference
  | some logGroup :: rest, logGroupNames =>
    collectLogGroupNames rest (logGroupNames ++ [logGroup.LogGroupName])

def handleDescribeLogGroups {σ : Type} (e : CloudWatchExecutor σ) (parameters : Json)
    (w : World σ) : Handled σ :=
  let logGroupNamePrefix := (parameters.Get "logGroupNamePrefix").MustString ""
  let r :=
    if logGroupNamePrefix.utf8ByteSize < 1 then
      e.logsClient.callDescribeLogGroups
        { Limit := aws.Int64 ((parameters.Get "limit").MustInt64 50),
          LogGroupNamePrefix := none } w
    else
      e.logsClient.callDescribeLogGroups
        { Limit := aws.Int64 ((parameters.Get "limit").MustInt64 50),
          LogGroupNamePrefix := aws.String logGroupNamePrefix } w
  match r.1 with
  | (some response, none) =>
    match collectLogGroupNames response.LogGroups [] with
    | .panics p => (.panics p, r.2)
    | .ret logGroupNames =>
      let groupNamesField := data.NewField "logGroupName" (.nullableString logGroupNames)
      let frame := data.NewFrame "logGroups" [groupNamesField]
      (.ret (some frame, none), r.2)
  | (_, err) =>
    -- `err != nil || response == nil`: `return nil, err.(awserr.Error)`
    match assertAwsError err with
    | .panics p => (.panics p, r.2)
    | .ret a => (.ret (none, some (.aws a)), r.2)

def executeStartQuery {σ : Type} (e : CloudWatchExecutor σ) (parameters : Json)
    (timeRange : TimeRange) (w : World σ) :
    (Option StartQueryOutput × Option GoError) × World σ :=
  match timeRange.ParseFrom with
  | .error err => ((none, some err), w)
  | .ok startTime =>
    match timeRange.ParseTo with
    | .error err => ((none, some err), w)
    | .ok endTime =>
      if !startTime.Before endTime then
        ((none, some (fmt.Errorf "Invalid time range: Start time must be before end time")), w)
      else
        e.logsClient.callStartQuery
          { StartTime := aws.Int64 startTime.Unix,
            EndTime := aws.Int64 endTime.Unix,
            Limit := aws.Int64 ((parameters.Get "limit").MustInt64 1000),
            LogGroupNames := aws.StringSlice (parameters.Get "logGroupNames").MustStringArray,
            QueryString :=
              aws.String ("fields @timestamp | " ++ (parameters.Get "queryString").MustString "") }
          w

def handleStartQuery {σ : Type} (e : CloudWatchExecutor σ) (parameters : Json)
    (timeRange : TimeRange) (refID : String) (w : World σ) : Handled σ :=
  let r := executeStartQuery e parameters timeRange w
  match r.1 with
  | (_, some err) =>
    -- `fmt.Errorf(err.(awserr.Error).Message())`
    match assertAwsError (some err) with
    | .panics p => (.panics p, r.2)
    | .ret a => (.ret (none, some (fmt.Errorf a.message)), r.2)
  | (none, none) => (.panics .nilDereference, r.2)
  | (some startQueryResponse, none) =>
    match startQueryResponse.QueryId with
    | none => (.panics .nilDereference, r.2)
    | some queryId =>
      let dataFrame := data.NewFrame refID [data.NewField "queryId" (.string [queryId])]
      (.ret (some { dataFrame with RefID := refID }, none), r.2)

def executeStopQuery {σ : Type} (e : CloudWatchExecutor σ) (parameters : Json)
    (w : World σ) : Go (Option StopQueryOutput × Option GoError) × World σ :=
  let r := e.logsClient.callStopQuery
    { QueryId := aws.String ((parameters.Get "queryId").MustString "") } w
  match r.1 with
  | (response, some err) =>
    match assertAwsErrorOk (some err) with
    | none => (.panics .nilDereference, r.2) -- `awsErr.Code()` on a nil interface
    | some awsErr =>
      if awsErr.code = "InvalidParameterException" then
        (.ret (some { Success := aws.Bool false }, none), r.2)
      else
        match assertAwsError (some err) with
        | .panics p => (.panics p, r.2)
        | .ret a => (.ret (response, some (fmt.Errorf a.message)), r.2)
  | (response, none) => (.ret (response, none), r.2)

def handleStopQuery {σ : Type} (e : CloudWatchExecutor σ) (parameters : Json)
    (w : World σ) : Handled σ :=
  match executeStopQuery e parameters w with
  | (.panics p, w1) => (.panics p, w1)
  | (.ret (_, some err), w1) =>
    -- `fmt.Errorf(err.(awserr.Error).Message())`
    match assertAwsError (some err) with
    | .panics p => (.panics p, w1)
    | .ret a => (.ret (none, some (fmt.Errorf a.message)), w1)
  | (.ret (none, none), w1) => (.panics .nilDereference, w1)
  | (.ret (some response, none), w1) =>
    match response.Success with
    | none => (.panics .nilDereference, w1)
    | some success =>
      let dataFrame := data.NewFrame "StopQueryResponse" [data.NewField "success" (.bool [success])]
      (.ret (some dataFrame, none), w1)

def executeGetQueryResults {σ : Type} (e : CloudWatchExecutor σ) (parameters : Json)
    (w : World σ) : (Option GetQueryResultsOutput × Option GoError) × World σ :=
  e.logsClient.callGetQueryResults
    { QueryId := aws.String ((parameters.Get "queryId").MustString "") } w

def handleGetQueryResults {σ : Type} (d : Deps) (e : CloudWatchExecutor σ)
    (parameters : Json) (refID : String) (w : World σ) : Handled σ :=
  let r := executeGetQueryResults e parameters w
  match r.1 with
  | (_, some err) =>
    match assertAwsError (some err) with
    | .panics p => (.panics p, r.2)
    | .ret a => (.ret (none, some (fmt.Errorf a.message)), r.2)
  | (getQueryResultsOutput, none) =>
    match d.logsResultsToDataframes getQueryResultsOutput with
    | .panics p => (.panics p, r.2)
    | .ret none => (.panics .nilDereference, r.2) -- `dataFrame.Name = refID`
    | .ret (some dataFrame) =>
      (.ret (some { dataFrame with Name := refID, RefID := refID }, none), r.2)

/-- The loop of `handleGetLogGroupFields` over the reported fields: the name
and percent pointers of each are appended; a nil field pointer is dereferenced. -/
def collectLogGroupFields :
    List (Option LogGroupField) → List (Option String) → List (Option Int) →
      Go (List (Option String) × List (Option Int))
  | [], fieldNames, fieldPercentages => .ret (fieldNames, fieldPercentages)
  | none :: _, _, _ => .panics .nilDereference
  | some logGroupField :: rest, fieldNames, fieldPercentages =>
    collectLogGroupFields rest (fieldNames ++ [logGroupField.Name])
      (fieldPercentages ++ [logGroupField.Percent])

def handleGetLogGroupFields {σ : Type} (e : CloudWatchExecutor σ) (parameters : Json)
    (refID : String) (w : World σ) : Handled σ :=
  let r := e.logsClient.callGetLogGroupFields
    { LogGroupName := aws.String ((parameters.Get "logGroupName").MustString ""),
      Time := aws.Int64 ((parameters.Get "time").MustInt64 0) } w
  match r.1 with
  | (_, some err) =>
    match assertAwsError (some err) with
    | .panics p => (.panics p, r.2)
    | .ret a => (.ret (none, some (fmt.Errorf a.message)), r.2)
  | (none, none) => (.panics .nilDereference, r.2)
  | (some getLogGroupFieldsOutput, none) =>
    match collectLogGroupFields getLogGroupFieldsOutput.LogGroupFields [] [] with
    | .panics p => (.panics p, r.2)
    | .ret (fieldNames, fieldPercentages) =>
      let dataFrame := data.NewFrame refID
        [ data.NewField "name" (.nullableString fieldNames),
          data.NewField "percent" (.nullableInt64 fieldPercentages) ]
      (.ret (some { dataFrame with RefID := refID }, none), r.2)

/-! ## The dispatcher -/

def executeLogAction {σ : Type} (d : Deps) (e : CloudWatchExecutor σ)
    (queryContext : TsdbQuery) (query : Query) (w : World σ) : Handled σ :=
  let parameters := query.Model
  let subType := (query.Model.Get "subtype").MustString ""
  let r : Handled σ :=
    if subType = "DescribeLogGroups" then
      handleDescribeLogGroups e parameters w
    else if subType = "GetLogGroupFields" then
      handleGetLogGroupFields e parameters query.RefId w
    else if subType = "StartQuery" then
      handleStartQuery e parameters queryContext.TimeRange query.RefId w
    else if subType = "StopQuery" then
      handleStopQuery e parameters w
    else if subType = "GetQueryResults" then
      handleGetQueryResults d e parameters query.RefId w
    else
      (.ret (none, none), w)
  match r with
  | (.panics p, w1) => (.panics p, w1)
  | (.ret (none, err), w1) => (.ret (none, err), w1)
  | (.ret (some data, _), w1) => (.ret (some data, none), w1)

/-- The loop of `executeLogActions` over the requests still to handle, with the
response built so far. -/
def executeLogActionsLoop {σ : Type} (d : Deps) (e : CloudWatchExecutor σ)
    (queryContext : TsdbQuery) :
    List Query → Response → World σ → Go (Option Response × Option GoError) × World σ
  | [], response, w => (.ret (some response, none), w)
  | query :: rest, response, w =>
    match executeLogAction d e queryContext query w with
    | (.panics p, w1) => (.panics p, w1)
    | (.ret (none, err), w1) => (.ret (none, err), w1)
    | (.ret (some dataframe, _), w1) =>
      match d.MarshalArrow dataframe with
      | (_, some err) => (.ret (none, some err), w1)
      | (dataframeEnc, none) =>
        executeLogActionsLoop d e queryContext rest
          { Results := response.Results.set query.RefId
              { RefId := query.RefId, Dataframes := [dataframeEnc] } }
          w1

def executeLogActions {σ : Type} (d : Deps) (e : CloudWatchExecutor σ)
    (queryContext : TsdbQuery) (w : World σ) :
    Go (Option Response × Option GoError) × World σ :=
  executeLogActionsLoop d e queryContext queryContext.Queries { Results := [] } w

/-- The outcome of each request's handler when the requests are handled one
after another from the world `w`: the `i`-th entry is what `executeLogAction`
returns for the `i`-th request in the world the requests before it left. -/
def handlerOutcomes {σ : Type} (d : Deps) (e : CloudWatchExecutor σ) (queryContext : TsdbQuery) :
    List Query → World σ → List (Go (Option Frame × Option GoError))
  | [], _ => []
  | query :: rest, w =>
    (executeLogAction d e queryContext query w).1 ::
      handlerOutcomes d e queryContext rest (executeLogAction d e queryContext query w).2

/-- The entry that `executeLogActions` stores for a request whose handler
returned the frame `f`: under the reference id, the result with that reference
id and the one encoded frame. -/
def resultEntry (d : Deps) (query : Query) (f : Frame) : String × QueryResult :=
  (query.RefId, { RefId := query.RefId, Dataframes := [(d.MarshalArrow f).1] })

/-! ## Fixtures for concrete runs -/

/-- A client every method of which fails with the given error and returns no
output, whatever the request. -/
def failingClient (err : GoError) : LogsClient Unit where
  DescribeLogGroups := fun _ u => ((none, some err), u)
  GetLogGroupFields := fun _ u => ((none, some err), u)
  StartQuery := fun _ u => ((none, some err), u)
  StopQuery := fun _ u => ((none, some err), u)
  GetQueryResults := fun _ u => ((none, some err), u)

/-- A client that answers as the test double does, except that
`DescribeLogGroups` reports the given groups and `GetLogGroupFields` the given
fields, whatever the request. -/
def reportingClient (groups : List LogGroup) (fields : List LogGroupField) :
    LogsClient Unit where
  DescribeLogGroups := fun _ u => ((some { LogGroups := groups.map some }, none), u)
  GetLogGroupFields := fun _ u => ((some { LogGroupFields := fields.map some }, none), u)
  StartQuery := FakeLogsClient.StartQuery
  StopQuery := FakeLogsClient.StopQuery
  GetQueryResults := FakeLogsClient.GetQueryResults

/-- A client that answers as the test double does, except that
`GetLogGroupFields` fails with the given error. -/
def fieldsFailingClient (err : GoError) : LogsClient Unit where
  DescribeLogGroups := FakeLogsClient.DescribeLogGroups
  GetLogGroupFields := fun _ u => ((none, some err), u)
  StartQuery := FakeLogsClient.StartQuery
  StopQuery := FakeLogsClient.StopQuery
  GetQueryResults := FakeLogsClient.GetQueryResults

/-- Concrete stand-ins for the two functions taken as parameters: an encoder
that never fails and a frame builder that returns an empty frame. -/
def fixtureDeps : Deps where
  MarshalArrow := fun f => (f.Name.data.map Char.toNat ++ [f.Fields.length], none)
  logsResultsToDataframes := fun _ => .ret (some (data.NewFrame "" []))

/-- The world before any call, for a client without state. -/
def freshWorld : World Unit := { remote := (), calls := [] }

/-- A time range whose two bounds parse, to the given nanoseconds. -/
def rangeOf (start stop : Int) : TimeRange :=
  { parsedFrom := .ok ⟨start⟩, parsedTo := .ok ⟨stop⟩ }

/-- A request with the given reference id and action tag and no other
parameter. -/
def requestOf (refId subtype : String) : Query :=
  { RefId := refId, Model := .object [("subtype", .string subtype)] }

/-! ## The formatter: the step bound is enough, and plain text is copied -/

/-- Skipping flags does not lengthen the text. -/
theorem fmt.skipFlags_length (cs : List Char) : (fmt.skipFlags cs).length ≤ cs.length := by
  induction cs with
  | nil => simp [fmt.skipFlags]
  | cons c rest ih =>
    simp only [fmt.skipFlags]
    split
    · simp only [List.length_cons]; omega
    · simp

/-- Reading a number does not lengthen the text. -/
theorem fmt.parsenum_length (cs : List Char) (num : Nat) (isnum : Bool) :
    (fmt.parsenum cs num isnum).2.length ≤ cs.length := by
  induction cs generalizing num isnum with
  | nil => simp [fmt.parsenum]
  | cons c rest ih =>
    simp only [fmt.parsenum]
    split
    · split
      · simp
      · have := ih (num * 10 + (c.toNat - 48)) true
        simp only [List.length_cons]
        omega
    · simp

/-- The text after the closing bracket is shorter than the text. -/
theorem fmt.splitAtBracket_length (cs between after : List Char)
    (h : fmt.splitAtBracket cs = some (between, after)) : after.length ≤ cs.length := by
  induction cs generalizing between with
  | nil => simp [fmt.splitAtBracket] at h
  | cons c rest ih =>
    simp only [fmt.splitAtBracket] at h
    split at h
    · simp only [Option.some.injEq, Prod.mk.injEq] at h
      rw [← h.2]
      simp
    · cases hs : fmt.splitAtBracket rest with
      | none => simp [hs] at h
      | some p =>
        simp only [hs, Option.map_some', Option.some.injEq, Prod.mk.injEq] at h
        have := ih p.1 (by rw [hs, ← h.2])
        simp only [List.length_cons]
        omega

/-- Reading an argument index does not lengthen the text. -/
theorem fmt.argNumber_length (cs : List Char) : (fmt.argNumber cs).1.length ≤ cs.length := by
  unfold fmt.argNumber
  split
  · rename_i rest
    split
    · simp
    · split
      · simp
      · rename_i between after hs
        have := fmt.splitAtBracket_length rest between after hs
        simp only [List.length_cons]
        omega
  · simp

/-- Reading the width does not lengthen the text. -/
theorem fmt.width_length (a1 : List Char × Bool × Bool) :
    (fmt.width a1).2.1.length ≤ a1.1.length := by
  unfold fmt.width
  split
  · rename_i r h
    rw [h]
    simp
  · exact fmt.parsenum_length _ _ _

/-- Reading the precision does not lengthen the text. -/
theorem fmt.precision_length (w : List Char × List Char × Bool × Bool) :
    (fmt.precision w).2.1.length ≤ w.2.1.length := by
  unfold fmt.precision
  split
  · rename_i r h
    rw [h]
    have ha := fmt.argNumber_length r
    split
    · rename_i r2 h2
      rw [h2] at ha
      simp only [List.length_cons] at ha ⊢
      omega
    · have := fmt.parsenum_length (fmt.argNumber r).1 0 false
      simp only [List.length_cons]
      omega
  · simp

/-- Reading the last argument index does not lengthen the text. -/
theorem fmt.lastIndex_length (q : List Char × List Char × Bool × Bool) :
    (fmt.lastIndex q).1.length ≤ q.2.1.length := by
  unfold fmt.lastIndex
  split
  · simp
  · exact fmt.argNumber_length _

/-- The text that follows a directive is not longer than the text after the
percent sign. -/
theorem fmt.directive_length (cs : List Char) : (fmt.directive cs).2.length ≤ cs.length := by
  have h1 := fmt.skipFlags_length cs
  have h2 := fmt.argNumber_length (fmt.skipFlags cs)
  have h3 := fmt.width_length (fmt.argNumber (fmt.skipFlags cs))
  have h4 := fmt.precision_length (fmt.width (fmt.argNumber (fmt.skipFlags cs)))
  have h5 := fmt.lastIndex_length
    (fmt.precision (fmt.width (fmt.argNumber (fmt.skipFlags cs))))
  unfold fmt.directive
  simp only []
  split
  · simp
  · rename_i verb rest h
    rw [h] at h5
    simp only [List.length_cons] at h5
    split
    · simp only []; omega
    · split <;> (simp only []; omega)

/-- The step bound of `doPrintf` is enough: any bound that is at least the
length of the format gives the same text. -/
theorem fmt.doPrintf_fuel (n m : Nat) (cs : List Char) (hn : cs.length ≤ n)
    (hm : cs.length ≤ m) : fmt.doPrintf n cs = fmt.doPrintf m cs := by
  induction n generalizing m cs with
  | zero =>
    have hcs : cs = [] := List.length_eq_zero.mp (Nat.le_zero.mp hn)
    subst hcs
    cases m <;> rfl
  | succ n ih =>
    cases cs with
    | nil => cases m <;> rfl
    | cons c rest =>
      cases m with
      | zero => simp at hm
      | succ m =>
        simp only [List.length_cons, Nat.add_le_add_iff_right] at hn hm
        have hd := fmt.directive_length rest
        simp only [fmt.doPrintf]
        rw [ih m rest hn hm, ih m (fmt.directive rest).2 (by omega) (by omega)]

/-- A format without a percent sign is written unchanged. -/
theorem fmt.doPrintf_literal (n : Nat) (cs : List Char) (hn : cs.length ≤ n)
    (h : ∀ c ∈ cs, c ≠ '%') : fmt.doPrintf n cs = cs := by
  induction cs generalizing n with
  | nil => cases n <;> rfl
  | cons c rest ih =>
    cases n with
    | zero => simp at hn
    | succ n =>
      simp only [List.length_cons, Nat.add_le_add_iff_right] at hn
      have hc : (c == '%') = false := by simpa using h c (List.mem_cons_self _ _)
      simp only [fmt.doPrintf, hc]
      rw [ih n hn (fun x hx => h x (List.mem_cons_of_mem _ hx))]
      rfl

/-- `fmt.Errorf` of a message without a percent sign is the plain error with
that message as its text. -/
theorem fmt.Errorf_literal (message : String) (h : ∀ c ∈ message.data, c ≠ '%') :
    (fmt.Errorf message).Error = message := by
  simp only [fmt.Errorf, fmt.Sprintf, GoError.Error]
  rw [show message.length = message.data.length from rfl,
    fmt.doPrintf_literal _ _ (Nat.le_refl _) h]

/-! ## Single handlers -/

/-- C1 (the code departs from the claim): for every parameter set and every time
range whose parsed start is not before its parsed end, `executeStartQuery`
builds the `Invalid time range` error without calling the client, and
`handleStartQuery` then panics on its type assertion instead of returning that
error; the world, and so the call log, is unchanged. -/
theorem handleStartQuery_invalid_range_panics {σ : Type} (e : CloudWatchExecutor σ)
    (parameters : Json) (timeRange : TimeRange) (refID : String) (w : World σ)
    (startTime endTime : Time)
    (hfrom : timeRange.ParseFrom = .ok startTime) (hto : timeRange.ParseTo = .ok endTime)
    (hrange : endTime.nanos ≤ startTime.nanos) :
    executeStartQuery e parameters timeRange w =
        ((none, some (.plain "Invalid time range: Start time must be before end time")), w) ∧
      handleStartQuery e parameters timeRange refID w = (.panics .interfaceConversion, w) := by
  have hb : startTime.Before endTime = false := by
    simp [Time.Before, hrange]
  have hex : executeStartQuery e parameters timeRange w =
      ((none, some (.plain "Invalid time range: Start time must be before end time")), w) := by
    have hfmt : fmt.Errorf "Invalid time range: Start time must be before end time" =
        .plain "Invalid time range: Start time must be before end time" := by decide
    simp [executeStartQuery, hfrom, hto, hb, hfmt]
  refine ⟨hex, ?_⟩
  simp [handleStartQuery, hex, assertAwsError]

/-- Witness of C1: the test double, start and end both at the epoch. -/
theorem handleStartQuery_invalid_range_panics_witness :
    handleStartQuery ⟨FakeLogsClient⟩ (.object []) (rangeOf 0 0) "A" freshWorld =
      (.panics .interfaceConversion, freshWorld) :=
  (handleStartQuery_invalid_range_panics ⟨FakeLogsClient⟩ (.object []) (rangeOf 0 0) "A"
    freshWorld ⟨0⟩ ⟨0⟩ rfl rfl (by decide)).2

/-- C2: when the client's `StopQuery` fails with an AWS error of code
`InvalidParameterException`, `handleStopQuery` returns no error and the frame
`StopQueryResponse` whose single column `success` holds the one value false. -/
theorem handleStopQuery_not_stoppable {σ : Type} (e : CloudWatchExecutor σ)
    (parameters : Json) (w : World σ) (response : Option StopQueryOutput) (a : AwsError)
    (hcall : (e.logsClient.StopQuery
      { QueryId := aws.String ((parameters.Get "queryId").MustString "") } w.remote).1 =
        (response, some (.aws a)))
    (hcode : a.code = "InvalidParameterException") :
    (handleStopQuery e parameters w).1 =
      .ret (some { Name := "StopQueryResponse", RefID := "",
                   Fields := [{ Name := "success", Values := .bool [false] }] }, none) := by
  simp [handleStopQuery, executeStopQuery, LogsClient.callStopQuery, hcall, assertAwsErrorOk,
    hcode, aws.Bool, data.NewFrame, data.NewField]

/-- Witness of C2: a client whose `StopQuery` reports the job as not stoppable. -/
theorem handleStopQuery_not_stoppable_witness :
    (handleStopQuery
        ⟨failingClient (.aws (awserr.New "InvalidParameterException" "not stoppable"))⟩
        (.object [("queryId", .string "q-1")]) freshWorld).1 =
      .ret (some { Name := "StopQueryResponse", RefID := "",
                   Fields := [{ Name := "success", Values := .bool [false] }] }, none) :=
  handleStopQuery_not_stoppable
    ⟨failingClient (.aws (awserr.New "InvalidParameterException" "not stoppable"))⟩
    (.object [("queryId", .string "q-1")]) freshWorld none
    (awserr.New "InvalidParameterException" "not stoppable") rfl rfl

/-- C3 (the code departs from the claim): when the client's `StopQuery` fails
with any error other than an AWS error of code `InvalidParameterException`,
`handleStopQuery` returns neither an error nor a frame: it panics, on the second
type assertion when the error is an AWS error, on `awsErr.Code()` otherwise. -/
theorem handleStopQuery_other_error_panics {σ : Type} (e : CloudWatchExecutor σ)
    (parameters : Json) (w : World σ) (response : Option StopQueryOutput) (err : GoError)
    (hcall : (e.logsClient.StopQuery
      { QueryId := aws.String ((parameters.Get "queryId").MustString "") } w.remote).1 =
        (response, some err))
    (hother : ∀ a, err = .aws a → a.code ≠ "InvalidParameterException") :
    (handleStopQuery e parameters w).1 =
      .panics (match err with
        | .aws _ => .interfaceConversion
        | .plain _ => .nilDereference) := by
  cases err with
  | aws a =>
    have hne : a.code ≠ "InvalidParameterException" := hother a rfl
    simp [handleStopQuery, executeStopQuery, LogsClient.callStopQuery, hcall, assertAwsErrorOk,
      hne, assertAwsError, fmt.Errorf]
  | plain t =>
    simp [handleStopQuery, executeStopQuery, LogsClient.callStopQuery, hcall, assertAwsErrorOk]

/-- Witness of C3: a client whose `StopQuery` fails with `ResourceNotFoundException`. -/
theorem handleStopQuery_other_error_panics_witness :
    (handleStopQuery
        ⟨failingClient (.aws (awserr.New "ResourceNotFoundException" "no such query"))⟩
        (.object [("queryId", .string "q-1")]) freshWorld).1 =
      .panics .interfaceConversion :=
  handleStopQuery_other_error_panics
    ⟨failingClient (.aws (awserr.New "ResourceNotFoundException" "no such query"))⟩
    (.object [("queryId", .string "q-1")]) freshWorld none
    (.aws (awserr.New "ResourceNotFoundException" "no such query")) rfl
    (by intro a h; cases h; decide)

/-- The loop over the reported groups, when no group pointer is nil, appends
every name pointer in order. -/
theorem collectLogGroupNames_map (groups : List LogGroup) (acc : List (Option String)) :
    collectLogGroupNames (groups.map some) acc =
      .ret (acc ++ groups.map LogGroup.LogGroupName) := by
  induction groups generalizing acc with
  | nil => simp [collectLogGroupNames]
  | cons g rest ih => simp [collectLogGroupNames, ih]

/-- The loop over the reported fields, when no field pointer is nil, appends
every name and percent pointer in order. -/
theorem collectLogGroupFields_map (fields : List LogGroupField)
    (names : List (Option String)) (percents : List (Option Int)) :
    collectLogGroupFields (fields.map some) names percents =
      .ret (names ++ fields.map LogGroupField.Name,
        percents ++ fields.map LogGroupField.Percent) := by
  induction fields generalizing names percents with
  | nil => simp [collectLogGroupFields]
  | cons f rest ih => simp [collectLogGroupFields, ih]

/-- C10: for every parameter set and every time range with start before end,
`handleStartQuery` makes exactly one client call, a `StartQuery` whose query
string is `fields @timestamp | ` followed by the `queryString` parameter (the
empty string when absent), and so begins with `fields @timestamp |`. -/
theorem handleStartQuery_query_string {σ : Type} (e : CloudWatchExecutor σ)
    (parameters : Json) (timeRange : TimeRange) (refID : String) (w : World σ)
    (startTime endTime : Time)
    (hfrom : timeRange.ParseFrom = .ok startTime) (hto : timeRange.ParseTo = .ok endTime)
    (hrange : startTime.nanos < endTime.nanos) :
    ∃ input : StartQueryInput,
      (handleStartQuery e parameters timeRange refID w).2.calls =
          w.calls ++ [Call.StartQuery input] ∧
        input.QueryString =
          some ("fields @timestamp | " ++ (parameters.Get "queryString").MustString "") ∧
        ∃ rest : String, input.QueryString = some ("fields @timestamp |" ++ rest) := by
  have hb : startTime.Before endTime = true := by
    simp [Time.Before, hrange]
  refine ⟨{ StartTime := aws.Int64 startTime.Unix,
            EndTime := aws.Int64 endTime.Unix,
            Limit := aws.Int64 ((parameters.Get "limit").MustInt64 1000),
            LogGroupNames := aws.StringSlice (parameters.Get "logGroupNames").MustStringArray,
            QueryString :=
              aws.String ("fields @timestamp | " ++ (parameters.Get "queryString").MustString "") },
    ?_, rfl, " " ++ (parameters.Get "queryString").MustString "", ?_⟩
  · have hw : (handleStartQuery e parameters timeRange refID w).2 =
        (executeStartQuery e parameters timeRange w).2 := by
      unfold handleStartQuery
      simp only []
      split
      · split <;> rfl
      · rfl
      · split <;> rfl
    rw [hw]
    simp [executeStartQuery, hfrom, hto, hb, LogsClient.callStartQuery]
  · have hlit : "fields @timestamp | " = "fields @timestamp |" ++ " " := by decide
    simp only [aws.String]
    rw [hlit, String.append_assoc]

/-- Witness of C10: the test double, a query string given, a one-second range. -/
theorem handleStartQuery_query_string_witness :
    ∃ input : StartQueryInput,
      (handleStartQuery ⟨FakeLogsClient⟩ (.object [("queryString", .string "fields @message")])
          (rangeOf 0 1000000000) "A" freshWorld).2.calls =
          freshWorld.calls ++ [Call.StartQuery input] ∧
        input.QueryString =
          some ("fields @timestamp | " ++
            (Json.Get (.object [("queryString", .string "fields @message")])
              "queryString").MustString "") ∧
        ∃ rest : String, input.QueryString = some ("fields @timestamp |" ++ rest) :=
  handleStartQuery_query_string ⟨FakeLogsClient⟩
    (.object [("queryString", .string "fields @message")]) (rangeOf 0 1000000000) "A"
    freshWorld ⟨0⟩ ⟨1000000000⟩ rfl rfl (by decide)

/-- What `handleDescribeLogGroups` does when the request has no prefix and no
limit and the client answers the request of limit 50 with a list of groups:
one logged call, and the frame of all the reported name pointers. -/
theorem handleDescribeLogGroups_eval {σ : Type} (e : CloudWatchExecutor σ) (parameters : Json)
    (w : World σ) (groups : List LogGroup)
    (hname : parameters.Get "logGroupNamePrefix" = .null)
    (hlimit : parameters.Get "limit" = .null)
    (hcall : (e.logsClient.DescribeLogGroups
      { Limit := some 50, LogGroupNamePrefix := none } w.remote).1 =
        (some { LogGroups := groups.map some }, none)) :
    handleDescribeLogGroups e parameters w =
      (.ret (some { Name := "logGroups", RefID := "",
                    Fields := [{ Name := "logGroupName",
                                 Values := .nullableString (groups.map LogGroup.LogGroupName) }] },
          none),
        { remote := (e.logsClient.DescribeLogGroups
            { Limit := some 50, LogGroupNamePrefix := none } w.remote).2,
          calls := w.calls ++
            [Call.DescribeLogGroups { Limit := some 50, LogGroupNamePrefix := none }] }) := by
  have hsize : "".utf8ByteSize < 1 := by decide
  simp [handleDescribeLogGroups, hname, hlimit, Json.MustString, Json.MustInt64, hsize,
    aws.Int64, LogsClient.callDescribeLogGroups, hcall, collectLogGroupNames_map,
    data.NewFrame, data.NewField]

/-- What `handleGetLogGroupFields` does when the client answers with a list of
fields: the frame of all the reported name and percent pointers. -/
theorem handleGetLogGroupFields_eval {σ : Type} (e : CloudWatchExecutor σ) (parameters : Json)
    (refID : String) (w : World σ) (fields : List LogGroupField)
    (hcall : (e.logsClient.GetLogGroupFields
      { LogGroupName := aws.String ((parameters.Get "logGroupName").MustString ""),
        Time := aws.Int64 ((parameters.Get "time").MustInt64 0) } w.remote).1 =
        (some { LogGroupFields := fields.map some }, none)) :
    (handleGetLogGroupFields e parameters refID w).1 =
      .ret (some { Name := refID, RefID := refID,
                   Fields := [
                     { Name := "name",
                       Values := .nullableString (fields.map LogGroupField.Name) },
                     { Name := "percent",
                       Values := .nullableInt64 (fields.map LogGroupField.Percent) }] },
          none) := by
  simp [handleGetLogGroupFields, LogsClient.callGetLogGroupFields, hcall,
    collectLogGroupFields_map, data.NewFrame, data.NewField]

/-- C8 as amended: with no name prefix and no limit parameter the handler sends
one `DescribeLogGroups` request of limit 50 without prefix, and whatever list of
groups the client answers with, the frame `logGroups` has the single column
`logGroupName` holding the reported names, all of them, in the order reported;
the handler itself truncates nothing. -/
theorem handleDescribeLogGroups_reported_names {σ : Type} (e : CloudWatchExecutor σ)
    (parameters : Json) (w : World σ) (groups : List LogGroup)
    (hname : parameters.Get "logGroupNamePrefix" = .null)
    (hlimit : parameters.Get "limit" = .null)
    (hcall : (e.logsClient.DescribeLogGroups
      { Limit := some 50, LogGroupNamePrefix := none } w.remote).1 =
        (some { LogGroups := groups.map some }, none)) :
    (handleDescribeLogGroups e parameters w).1 =
        .ret (some { Name := "logGroups", RefID := "",
                     Fields := [{ Name := "logGroupName",
                                  Values := .nullableString
                                    (groups.map LogGroup.LogGroupName) }] },
            none) ∧
      (handleDescribeLogGroups e parameters w).2.calls =
        w.calls ++ [Call.DescribeLogGroups { Limit := some 50, LogGroupNamePrefix := none }] := by
  rw [handleDescribeLogGroups_eval e parameters w groups hname hlimit hcall]
  exact ⟨rfl, rfl⟩

/-- Witness of C8 as amended: the test double, which reports three groups. -/
theorem handleDescribeLogGroups_reported_names_witness :
    (handleDescribeLogGroups ⟨FakeLogsClient⟩ (.object []) freshWorld).1 =
        .ret (some { Name := "logGroups", RefID := "",
                     Fields := [{ Name := "logGroupName",
                                  Values := .nullableString
                                    ([⟨some "group_a"⟩, ⟨some "group_b"⟩, ⟨some "group_c"⟩].map
                                      LogGroup.LogGroupName) }] },
            none) ∧
      (handleDescribeLogGroups ⟨FakeLogsClient⟩ (.object []) freshWorld).2.calls =
        freshWorld.calls ++
          [Call.DescribeLogGroups { Limit := some 50, LogGroupNamePrefix := none }] :=
  handleDescribeLogGroups_reported_names ⟨FakeLogsClient⟩ (.object []) freshWorld
    [⟨some "group_a"⟩, ⟨some "group_b"⟩, ⟨some "group_c"⟩] rfl rfl rfl

/-- C8 as stated fails: it is not so that for every reported list the column
holds the reported names truncated to the first 50; a client that reports 51
groups gets all 51 back. -/
theorem handleDescribeLogGroups_truncation_counterexample :
    ¬ ∀ groups : List LogGroup,
        (handleDescribeLogGroups ⟨reportingClient groups []⟩ (.object []) freshWorld).1 =
          .ret (some { Name := "logGroups", RefID := "",
                       Fields := [{ Name := "logGroupName",
                                    Values := .nullableString
                                      ((groups.map LogGroup.LogGroupName).take 50) }] },
              none) := by
  intro h
  have h51 := h (List.replicate 51 ⟨some "g"⟩)
  rw [handleDescribeLogGroups_eval ⟨reportingClient (List.replicate 51 ⟨some "g"⟩) []⟩
    (.object []) freshWorld (List.replicate 51 ⟨some "g"⟩) rfl rfl rfl] at h51
  simp only [Go.ret.injEq, Prod.mk.injEq, Option.some.injEq, Frame.mk.injEq, List.cons.injEq,
    Field.mk.injEq, FieldValues.nullableString.injEq, true_and, and_true] at h51
  have hlen := congrArg List.length h51
  simp at hlen

/-- C9 as amended: whatever list of fields the client answers with, the frame
has exactly the two columns `name` and `percent`, each with one value per
reported field in the order reported, row `i` holding the name and the percent
of field `i` unchanged; so the `percent` values lie in `[0,100]` whenever the
reported percents do. -/
theorem handleGetLogGroupFields_rows {σ : Type} (e : CloudWatchExecutor σ) (parameters : Json)
    (refID : String) (w : World σ) (fields : List LogGroupField)
    (hcall : (e.logsClient.GetLogGroupFields
      { LogGroupName := aws.String ((parameters.Get "logGroupName").MustString ""),
        Time := aws.Int64 ((parameters.Get "time").MustInt64 0) } w.remote).1 =
        (some { LogGroupFields := fields.map some }, none)) :
    ∃ names percents,
      (handleGetLogGroupFields e parameters refID w).1 =
          .ret (some { Name := refID, RefID := refID,
                       Fields := [{ Name := "name", Values := .nullableString names },
                                  { Name := "percent", Values := .nullableInt64 percents }] },
              none) ∧
        names.length = fields.length ∧ percents.length = fields.length ∧
        (∀ i (hi : i < fields.length), names[i]? = some fields[i].Name ∧
          percents[i]? = some fields[i].Percent) ∧
        ((∀ f ∈ fields, ∃ p : Int, f.Percent = some p ∧ 0 ≤ p ∧ p ≤ 100) →
          ∀ v ∈ percents, ∃ p : Int, v = some p ∧ 0 ≤ p ∧ p ≤ 100) := by
  refine ⟨fields.map LogGroupField.Name, fields.map LogGroupField.Percent,
    handleGetLogGroupFields_eval e parameters refID w fields hcall, by simp, by simp, ?_, ?_⟩
  · intro i hi
    simp [List.getElem?_map, List.getElem?_eq_getElem hi]
  · intro hall v hv
    obtain ⟨f, hf, rfl⟩ := List.mem_map.mp hv
    exact hall f hf

/-- Witness of C9 as amended: the test double, which reports three fields. -/
theorem handleGetLogGroupFields_rows_witness :
    ∃ names percents,
      (handleGetLogGroupFields ⟨FakeLogsClient⟩ (.object []) "A" freshWorld).1 =
          .ret (some { Name := "A", RefID := "A",
                       Fields := [{ Name := "name", Values := .nullableString names },
                                  { Name := "percent", Values := .nullableInt64 percents }] },
              none) ∧
        names.length = 3 ∧ percents.length = 3 :=
  let fields : List LogGroupField :=
    [⟨some "field_a", some 100⟩, ⟨some "field_b", some 30⟩, ⟨some "field_c", some 55⟩]
  match handleGetLogGroupFields_rows ⟨FakeLogsClient⟩ (.object []) "A" freshWorld fields rfl with
  | ⟨names, percents, h, hn, hp, _⟩ => ⟨names, percents, h, hn, hp⟩

/-- C9 as stated fails: it is not so that for every reported list every value
of the `percent` column lies in `[0,100]`; a client that reports a percent of
150 gets 150 back in the column. -/
theorem handleGetLogGroupFields_percent_counterexample :
    ¬ ∀ fields : List LogGroupField, ∃ names percents,
        (handleGetLogGroupFields ⟨reportingClient [] fields⟩ (.object []) "A" freshWorld).1 =
            .ret (some { Name := "A", RefID := "A",
                         Fields := [{ Name := "name", Values := .nullableString names },
                                    { Name := "percent", Values := .nullableInt64 percents }] },
                none) ∧
          names.length = fields.length ∧ percents.length = fields.length ∧
          ∀ v ∈ percents, ∃ p : Int, v = some p ∧ 0 ≤ p ∧ p ≤ 100 := by
  intro h
  obtain ⟨names, percents, heq, -, -, hall⟩ := h [⟨some "f", some 150⟩]
  rw [handleGetLogGroupFields_eval ⟨reportingClient [] [⟨some "f", some 150⟩]⟩ (.object []) "A"
    freshWorld [⟨some "f", some 150⟩] rfl] at heq
  simp only [Go.ret.injEq, Prod.mk.injEq, Option.some.injEq, Frame.mk.injEq, List.cons.injEq,
    Field.mk.injEq, FieldValues.nullableString.injEq, FieldValues.nullableInt64.injEq,
    true_and, and_true] at heq
  obtain ⟨p, hp, -, hle⟩ := hall (some 150) (by rw [← heq.2]; simp)
  cases hp
  omega

/-- On a remote failure that is an AWS error, `handleDescribeLogGroups` returns
no frame and the AWS error itself. -/
theorem handleDescribeLogGroups_remote_failure {σ : Type} (e : CloudWatchExecutor σ)
    (parameters : Json) (w : World σ) (response : Option DescribeLogGroupsOutput)
    (a : AwsError)
    (hcall : ∀ input, (e.logsClient.DescribeLogGroups input w.remote).1 =
      (response, some (.aws a))) :
    (handleDescribeLogGroups e parameters w).1 = .ret (none, some (.aws a)) := by
  unfold handleDescribeLogGroups
  by_cases hp : ((parameters.Get "logGroupNamePrefix").MustString "").utf8ByteSize < 1
  · simp only [hp, if_true, LogsClient.callDescribeLogGroups, hcall, assertAwsError]
  · simp only [hp, if_false, LogsClient.callDescribeLogGroups, hcall, assertAwsError]

/-- On a remote failure that is an AWS error, `handleGetQueryResults` returns no
frame and `fmt.Errorf` of the error's message. -/
theorem handleGetQueryResults_remote_failure {σ : Type} (d : Deps)
    (e : CloudWatchExecutor σ) (parameters : Json) (refID : String) (w : World σ)
    (response : Option GetQueryResultsOutput) (a : AwsError)
    (hcall : ∀ input, (e.logsClient.GetQueryResults input w.remote).1 =
      (response, some (.aws a))) :
    (handleGetQueryResults d e parameters refID w).1 =
      .ret (none, some (fmt.Errorf a.message)) := by
  simp [handleGetQueryResults, executeGetQueryResults, LogsClient.callGetQueryResults, hcall,
    assertAwsError]

/-- On a remote failure that is an AWS error, `handleGetLogGroupFields` returns
no frame and `fmt.Errorf` of the error's message. -/
theorem handleGetLogGroupFields_remote_failure {σ : Type} (e : CloudWatchExecutor σ)
    (parameters : Json) (refID : String) (w : World σ)
    (response : Option GetLogGroupFieldsOutput) (a : AwsError)
    (hcall : ∀ input, (e.logsClient.GetLogGroupFields input w.remote).1 =
      (response, some (.aws a))) :
    (handleGetLogGroupFields e parameters refID w).1 =
      .ret (none, some (fmt.Errorf a.message)) := by
  simp [handleGetLogGroupFields, LogsClient.callGetLogGroupFields, hcall, assertAwsError]

/-- C5 (the code departs from the claim): on a remote failure with code
`ThrottlingException` and message `Rate exceeded`, `handleDescribeLogGroups`
returns the AWS error itself, whose text puts the code before the message; and
on a message holding a percent sign, `100% busy`, `handleGetQueryResults` and
`handleGetLogGroupFields` return an error whose text is the message run through
the formatter, `100%!b(MISSING)usy`. -/
theorem remote_failure_text_differs :
    (∃ err, (handleDescribeLogGroups
          ⟨failingClient (.aws (awserr.New "ThrottlingException" "Rate exceeded"))⟩
          (.object []) freshWorld).1 = .ret (none, some err) ∧
        err.Error = "ThrottlingException: Rate exceeded") ∧
      (∃ err, (handleGetQueryResults fixtureDeps
          ⟨failingClient (.aws (awserr.New "ThrottlingException" "100% busy"))⟩
          (.object []) "A" freshWorld).1 = .ret (none, some err) ∧
        err.Error = "100%!b(MISSING)usy") ∧
      (∃ err, (handleGetLogGroupFields
          ⟨failingClient (.aws (awserr.New "ThrottlingException" "100% busy"))⟩
          (.object []) "A" freshWorld).1 = .ret (none, some err) ∧
        err.Error = "100%!b(MISSING)usy") := by
  refine ⟨⟨_, rfl, by decide⟩, ⟨_, rfl, by decide⟩, ⟨_, rfl, by decide⟩⟩

/-! ## The batch -/

/-- The lookup of a key after an assignment to that key. -/
theorem ResultMap.get?_set_self (m : ResultMap) (k : String) (v : QueryResult) :
    (m.set k v).get? k = some v := by
  simp [ResultMap.set, ResultMap.get?, List.lookup]

/-- The lookup of a key is not changed by removing entries of another key. -/
theorem ResultMap.lookup_filter_ne (m : ResultMap) (k k1 : String) (h : k ≠ k1) :
    (m.filter (fun p => p.1 != k1)).lookup k = m.lookup k := by
  induction m with
  | nil => rfl
  | cons p rest ih =>
    obtain ⟨a, b⟩ := p
    by_cases ha : a = k1
    · subst ha
      have hka : (k == a) = false := by simpa using h
      simp [List.filter, List.lookup, hka, ih]
    · have hne : (a != k1) = true := by simpa using ha
      simp only [List.filter, hne, List.lookup, ih]

/-- The lookup of a key after an assignment to another key. -/
theorem ResultMap.get?_set_ne (m : ResultMap) (k k1 : String) (v : QueryResult)
    (h : k ≠ k1) : (m.set k1 v).get? k = m.get? k := by
  have hk : (k == k1) = false := by simpa using h
  simp only [ResultMap.set, ResultMap.get?, List.lookup, hk]
  exact ResultMap.lookup_filter_ne m k k1 h

/-- The keys after an assignment: the assigned key and the keys there were. -/
theorem ResultMap.mem_keys_set (m : ResultMap) (k k1 : String) (v : QueryResult) :
    k ∈ (m.set k1 v).keys ↔ k = k1 ∨ k ∈ m.keys := by
  simp only [ResultMap.set, ResultMap.keys, List.map_cons, List.mem_cons]
  constructor
  · rintro (h | h)
    · exact Or.inl h
    · obtain ⟨p, hp, rfl⟩ := List.mem_map.mp h
      exact Or.inr (List.mem_map.mpr ⟨p, (List.mem_filter.mp hp).1, rfl⟩)
  · rintro (h | h)
    · exact Or.inl h
    · by_cases hk : k = k1
      · exact Or.inl hk
      · obtain ⟨p, hp, rfl⟩ := List.mem_map.mp h
        exact Or.inr (List.mem_map.mpr
          ⟨p, List.mem_filter.mpr ⟨hp, by simpa using hk⟩, rfl⟩)

/-- A run of assignments leaves the lookup of a key that is not assigned. -/
theorem ResultMap.get?_foldl_other (es : List (String × QueryResult)) (acc : ResultMap)
    (k : String) (h : ∀ p ∈ es, p.1 ≠ k) :
    (es.foldl (fun m p => ResultMap.set m p.1 p.2) acc).get? k = acc.get? k := by
  induction es generalizing acc with
  | nil => rfl
  | cons p rest ih =>
    simp only [List.foldl_cons]
    rw [ih _ (fun q hq => h q (List.mem_cons_of_mem _ hq))]
    exact ResultMap.get?_set_ne acc k p.1 p.2 (fun hk => h p (List.mem_cons_self _ _) hk.symm)

/-- After a run of assignments, a key holds the value of its last assignment. -/
theorem ResultMap.get?_foldl_last (es : List (String × QueryResult)) (acc : ResultMap)
    (i : Nat) (k : String) (v : QueryResult) (hi : es[i]? = some (k, v))
    (hlast : ∀ j p, i < j → es[j]? = some p → p.1 ≠ k) :
    (es.foldl (fun m p => ResultMap.set m p.1 p.2) acc).get? k = some v := by
  induction es generalizing acc i with
  | nil => simp at hi
  | cons p rest ih =>
    cases i with
    | zero =>
      simp only [List.getElem?_cons_zero, Option.some.injEq] at hi
      subst hi
      simp only [List.foldl_cons]
      rw [ResultMap.get?_foldl_other rest _ k]
      · exact ResultMap.get?_set_self acc k v
      · intro q hq
        obtain ⟨j, hj⟩ := List.getElem?_of_mem hq
        exact hlast (j + 1) q (Nat.succ_pos j) (by simpa using hj)
    | succ i =>
      simp only [List.foldl_cons]
      exact ih _ i (by simpa using hi)
        (fun j q hij hj => hlast (j + 1) q (Nat.succ_lt_succ hij) (by simpa using hj))

/-- The keys after a run of assignments: the assigned keys and the keys there
were. -/
theorem ResultMap.mem_keys_foldl (es : List (String × QueryResult)) (acc : ResultMap)
    (k : String) :
    k ∈ (es.foldl (fun m p => ResultMap.set m p.1 p.2) acc).keys ↔
      k ∈ acc.keys ∨ k ∈ es.map Prod.fst := by
  induction es generalizing acc with
  | nil => simp
  | cons p rest ih =>
    simp only [List.foldl_cons, List.map_cons, List.mem_cons]
    rw [ih, ResultMap.mem_keys_set]
    tauto

/-- The dispatcher reads the batch only for its time range. -/
theorem executeLogAction_timeRange {σ : Type} (d : Deps) (e : CloudWatchExecutor σ)
    (tr : TimeRange) (qs qs1 : List Query) (q : Query) (w : World σ) :
    executeLogAction d e ⟨tr, qs⟩ q w = executeLogAction d e ⟨tr, qs1⟩ q w := rfl

/-- The loop reads the batch only for its time range. -/
theorem executeLogActionsLoop_timeRange {σ : Type} (d : Deps) (e : CloudWatchExecutor σ)
    (tr : TimeRange) (qs qs1 : List Query) (l : List Query) (acc : Response) (w : World σ) :
    executeLogActionsLoop d e ⟨tr, qs⟩ l acc w = executeLogActionsLoop d e ⟨tr, qs1⟩ l acc w := by
  induction l generalizing acc w with
  | nil => rfl
  | cons q rest ih =>
    simp only [executeLogActionsLoop, executeLogAction_timeRange d e tr qs qs1, ih]

/-- When the loop over the requests `pre` ends with a response, the loop over
`pre` followed by more requests goes on from that response and that world. -/
theorem executeLogActionsLoop_append {σ : Type} (d : Deps) (e : CloudWatchExecutor σ)
    (ctx : TsdbQuery) (pre rest : List Query) (acc acc1 : Response) (w w1 : World σ)
    (hpre : executeLogActionsLoop d e ctx pre acc w = (.ret (some acc1, none), w1)) :
    executeLogActionsLoop d e ctx (pre ++ rest) acc w =
      executeLogActionsLoop d e ctx rest acc1 w1 := by
  induction pre generalizing acc w with
  | nil =>
    simp only [executeLogActionsLoop, Prod.mk.injEq, Go.ret.injEq, Option.some.injEq,
      and_true] at hpre
    obtain ⟨rfl, rfl⟩ := hpre
    rfl
  | cons q qs ih =>
    simp only [List.cons_append, executeLogActionsLoop] at hpre ⊢
    split at hpre
    · simp at hpre
    · simp at hpre
    · split at hpre
      · simp at hpre
      · exact ih _ _ hpre

/-- After a run of assignments, an assigned key holds the value of one of its
assignments. -/
theorem ResultMap.get?_foldl_mem (es : List (String × QueryResult)) (acc : ResultMap)
    (k : String) (hk : k ∈ es.map Prod.fst) :
    ∃ (i : Nat) (v : QueryResult), es[i]? = some (k, v) ∧
      (es.foldl (fun m p => ResultMap.set m p.1 p.2) acc).get? k = some v := by
  induction es generalizing acc with
  | nil => simp at hk
  | cons p rest ih =>
    by_cases hrest : k ∈ rest.map Prod.fst
    · obtain ⟨i, v, hi, hv⟩ := ih (ResultMap.set acc p.1 p.2) hrest
      exact ⟨i + 1, v, by simpa using hi, by simpa using hv⟩
    · have hp : k = p.1 := by
        simp only [List.map_cons, List.mem_cons] at hk
        exact hk.resolve_right hrest
      refine ⟨0, p.2, by simp [hp], ?_⟩
      simp only [List.foldl_cons]
      rw [ResultMap.get?_foldl_other rest _ k
        (fun q hq hqk => hrest (List.mem_map.mpr ⟨q, hq, hqk⟩)), hp]
      exact ResultMap.get?_set_self acc p.1 p.2

/-- There is one handler outcome per request. -/
theorem handlerOutcomes_length {σ : Type} (d : Deps) (e : CloudWatchExecutor σ)
    (ctx : TsdbQuery) (qs : List Query) (w : World σ) :
    (handlerOutcomes d e ctx qs w).length = qs.length := by
  induction qs generalizing w with
  | nil => rfl
  | cons q rest ih => simp [handlerOutcomes, ih]

/-- The entry stored at position `i` is that of request `i` and frame `i`. -/
theorem resultEntry_getElem? (d : Deps) (qs : List Query) (frames : List Frame) (i : Nat)
    (p : String × QueryResult) (hp : (List.zipWith (resultEntry d) qs frames)[i]? = some p) :
    ∃ query f, qs[i]? = some query ∧ frames[i]? = some f ∧ p = resultEntry d query f := by
  induction qs generalizing frames i with
  | nil => simp at hp
  | cons q rest ih =>
    cases frames with
    | nil => simp at hp
    | cons f fs =>
      cases i with
      | zero =>
        simp only [List.zipWith_cons_cons, List.getElem?_cons_zero, Option.some.injEq] at hp
        exact ⟨q, f, by simp, by simp, hp.symm⟩
      | succ i =>
        simp only [List.zipWith_cons_cons, List.getElem?_cons_succ] at hp
        obtain ⟨query, g, h1, h2, h3⟩ := ih fs i hp
        exact ⟨query, g, by simpa using h1, by simpa using h2, h3⟩

/-- Request `i` and frame `i` give the entry stored at position `i`. -/
theorem resultEntry_of_getElem? (d : Deps) (qs : List Query) (frames : List Frame) (i : Nat)
    (query : Query) (f : Frame) (hq : qs[i]? = some query) (hf : frames[i]? = some f) :
    (List.zipWith (resultEntry d) qs frames)[i]? = some (resultEntry d query f) := by
  induction qs generalizing frames i with
  | nil => simp at hq
  | cons q rest ih =>
    cases frames with
    | nil => simp at hf
    | cons g fs =>
      cases i with
      | zero =>
        simp only [List.getElem?_cons_zero, Option.some.injEq] at hq hf
        simp [hq, hf]
      | succ i =>
        simp only [List.getElem?_cons_succ] at hq hf
        simpa using ih fs i hq hf

/-- The keys of the stored entries are the reference ids of the requests. -/
theorem resultEntry_keys (d : Deps) (qs : List Query) (frames : List Frame)
    (hlen : frames.length = qs.length) :
    (List.zipWith (resultEntry d) qs frames).map Prod.fst = qs.map Query.RefId := by
  induction qs generalizing frames with
  | nil => simp
  | cons q rest ih =>
    cases frames with
    | nil => simp at hlen
    | cons f fs =>
      simp only [List.length_cons, Nat.add_right_cancel_iff] at hlen
      simp [resultEntry, ih fs hlen]

/-- When every request's handler returns a frame and every frame encodes, the
loop returns the response built so far with one entry assigned per request, in
batch order. -/
theorem executeLogActionsLoop_success {σ : Type} (d : Deps) (e : CloudWatchExecutor σ)
    (ctx : TsdbQuery) (qs : List Query) (frames : List Frame) (acc : Response) (w : World σ)
    (hframes : handlerOutcomes d e ctx qs w = frames.map (fun f => Go.ret (some f, none)))
    (henc : ∀ f ∈ frames, (d.MarshalArrow f).2 = none) :
    (executeLogActionsLoop d e ctx qs acc w).1 =
      .ret (some ⟨(List.zipWith (resultEntry d) qs frames).foldl
        (fun m p => ResultMap.set m p.1 p.2) acc.Results⟩, none) := by
  induction qs generalizing frames acc w with
  | nil => simp [executeLogActionsLoop]
  | cons q rest ih =>
    cases frames with
    | nil => simp [handlerOutcomes] at hframes
    | cons f fs =>
      simp only [handlerOutcomes, List.map_cons, List.cons.injEq] at hframes
      obtain ⟨h1, h2⟩ := hframes
      simp only [executeLogActionsLoop]
      split
      · rename_i heq
        rw [heq] at h1
        simp at h1
      · rename_i heq
        rw [heq] at h1
        simp at h1
      · rename_i frame err w1 heq
        rw [heq] at h1 h2
        simp only [Go.ret.injEq, Prod.mk.injEq, Option.some.injEq] at h1
        obtain ⟨rfl, -⟩ := h1
        have hf := henc frame (List.mem_cons_self _ _)
        split
        · rename_i henc1
          rw [henc1] at hf
          simp at hf
        · rename_i enc henc1
          rw [ih fs _ w1 h2 (fun g hg => henc g (List.mem_cons_of_mem _ hg))]
          simp [resultEntry, henc1]

/-- C4 as amended: when the requests before a request all succeed (the batch
made of them alone returns a response) and that request's handler fails with an
error, `executeLogActions` returns that error and no response, whatever
requests follow; the world it leaves is the one right after the failing
handler, so the requests after it are not processed. -/
theorem executeLogActions_first_failure {σ : Type} (d : Deps) (e : CloudWatchExecutor σ)
    (tr : TimeRange) (pre : List Query) (q : Query) (post : List Query) (w w1 w2 : World σ)
    (acc1 : Response) (err : GoError)
    (hpre : executeLogActions d e ⟨tr, pre⟩ w = (.ret (some acc1, none), w1))
    (hq : executeLogAction d e ⟨tr, pre ++ q :: post⟩ q w1 = (.ret (none, some err), w2)) :
    executeLogActions d e ⟨tr, pre ++ q :: post⟩ w = (.ret (none, some err), w2) := by
  unfold executeLogActions at hpre ⊢
  simp only [] at hpre ⊢
  rw [executeLogActionsLoop_timeRange d e tr pre (pre ++ q :: post)] at hpre
  rw [executeLogActionsLoop_append d e _ pre (q :: post) _ acc1 w w1 hpre]
  simp only [executeLogActionsLoop, hq]

/-- C6 as amended: a request whose action tag is none of the five is a no-op
for its own part, in every world: no error, no frame, no client call.  When the
requests before it all succeed (the batch made of them alone returns a
response), `executeLogActions` ends at it and returns no response and no error,
whatever requests follow; the world it leaves is the one the requests before it
left, so the requests after it are not processed. -/
theorem executeLogActions_unknown_tag {σ : Type} (d : Deps) (e : CloudWatchExecutor σ)
    (tr : TimeRange) (pre : List Query) (q : Query) (post : List Query) (w w1 : World σ)
    (acc1 : Response)
    (hpre : executeLogActions d e ⟨tr, pre⟩ w = (.ret (some acc1, none), w1))
    (htag : (q.Model.Get "subtype").MustString "" ∉
      ["DescribeLogGroups", "GetLogGroupFields", "StartQuery", "StopQuery",
        "GetQueryResults"]) :
    (∀ w3 : World σ, executeLogAction d e ⟨tr, pre ++ q :: post⟩ q w3 = (.ret (none, none), w3)) ∧
      executeLogActions d e ⟨tr, pre ++ q :: post⟩ w = (.ret (none, none), w1) := by
  simp only [List.mem_cons, List.mem_singleton, List.not_mem_nil, or_false, not_or] at htag
  obtain ⟨h1, h2, h3, h4, h5⟩ := htag
  have hq : ∀ w3 : World σ,
      executeLogAction d e ⟨tr, pre ++ q :: post⟩ q w3 = (.ret (none, none), w3) := by
    intro w3
    simp [executeLogAction, h1, h2, h3, h4, h5]
  refine ⟨hq, ?_⟩
  unfold executeLogActions at hpre ⊢
  simp only [] at hpre ⊢
  rw [executeLogActionsLoop_timeRange d e tr pre (pre ++ q :: post)] at hpre
  rw [executeLogActionsLoop_append d e _ pre (q :: post) _ acc1 w w1 hpre]
  simp only [executeLogActionsLoop, hq]

/-- C7: when every request's handler returns a frame and every frame encodes,
`executeLogActions` returns no error and a response whose keys are exactly the
reference ids of the requests; every key holds a result with that reference id
and exactly one encoded frame, the encoding of the frame returned by the handler
of a request with that reference id, namely of the last such request in the
batch (of the only one, when reference ids are not repeated). -/
theorem executeLogActions_all_succeed {σ : Type} (d : Deps) (e : CloudWatchExecutor σ)
    (ctx : TsdbQuery) (w : World σ) (frames : List Frame)
    (hframes : handlerOutcomes d e ctx ctx.Queries w =
      frames.map (fun f => Go.ret (some f, none)))
    (henc : ∀ f ∈ frames, (d.MarshalArrow f).2 = none) :
    ∃ response : Response,
      (executeLogActions d e ctx w).1 = .ret (some response, none) ∧
        (∀ r, r ∈ response.Results.keys ↔ r ∈ ctx.Queries.map Query.RefId) ∧
        (∀ r, r ∈ response.Results.keys → ∃ (i : Nat) (query : Query) (f : Frame),
          ctx.Queries[i]? = some query ∧ frames[i]? = some f ∧ query.RefId = r ∧
            response.Results.get? r =
              some { RefId := r, Dataframes := [(d.MarshalArrow f).1] }) ∧
        (∀ (i : Nat) (query : Query) (f : Frame),
          ctx.Queries[i]? = some query → frames[i]? = some f →
          (∀ (j : Nat) (later : Query),
            i < j → ctx.Queries[j]? = some later → later.RefId ≠ query.RefId) →
          response.Results.get? query.RefId =
            some { RefId := query.RefId, Dataframes := [(d.MarshalArrow f).1] }) := by
  have hlen : frames.length = ctx.Queries.length := by
    have h := congrArg List.length hframes
    rw [handlerOutcomes_length, List.length_map] at h
    exact h.symm
  have hkeys : ∀ r, r ∈ ResultMap.keys ((List.zipWith (resultEntry d) ctx.Queries frames).foldl
      (fun m p => ResultMap.set m p.1 p.2) []) ↔ r ∈ ctx.Queries.map Query.RefId := by
    intro r
    rw [ResultMap.mem_keys_foldl, resultEntry_keys d ctx.Queries frames hlen]
    simp [ResultMap.keys]
  refine ⟨_, executeLogActionsLoop_success d e ctx ctx.Queries frames ⟨[]⟩ w hframes henc,
    hkeys, ?_, ?_⟩
  · intro r hr
    have hmem : r ∈ (List.zipWith (resultEntry d) ctx.Queries frames).map Prod.fst := by
      rw [resultEntry_keys d ctx.Queries frames hlen]
      exact (hkeys r).mp hr
    obtain ⟨i, v, hi, hv⟩ := ResultMap.get?_foldl_mem _ [] r hmem
    obtain ⟨query, f, hq, hf, hp⟩ := resultEntry_getElem? d ctx.Queries frames i _ hi
    simp only [resultEntry, Prod.mk.injEq] at hp
    obtain ⟨hr1, hv1⟩ := hp
    refine ⟨i, query, f, hq, hf, hr1.symm, ?_⟩
    rw [hv, hv1, hr1]
  · intro i query f hq hf hlast
    refine ResultMap.get?_foldl_last _ [] i query.RefId _
      (resultEntry_of_getElem? d ctx.Queries frames i query f hq hf) ?_
    intro j p hij hj
    obtain ⟨later, g, hl, -, hp⟩ := resultEntry_getElem? d ctx.Queries frames j p hj
    rw [hp]
    exact hlast j later hij hl

/-- Witness of C4 as amended: the batch `A: DescribeLogGroups`,
`B: GetLogGroupFields`, `C: StartQuery` on a client whose `GetLogGroupFields`
fails: the batch returns the error of `B`, and the call log holds the calls of
`A` and `B` only. -/
theorem executeLogActions_first_failure_witness :
    executeLogActions fixtureDeps
        ⟨fieldsFailingClient (.aws (awserr.New "ThrottlingException" "Rate exceeded"))⟩
        ⟨rangeOf 0 1000000000,
          [requestOf "A" "DescribeLogGroups"] ++
            requestOf "B" "GetLogGroupFields" :: [requestOf "C" "StartQuery"]⟩
        freshWorld =
      (.ret (none, some (.plain "Rate exceeded")),
        { remote := (),
          calls := [Call.DescribeLogGroups { Limit := some 50, LogGroupNamePrefix := none },
            Call.GetLogGroupFields { LogGroupName := some "", Time := some 0 }] }) :=
  executeLogActions_first_failure fixtureDeps
    ⟨fieldsFailingClient (.aws (awserr.New "ThrottlingException" "Rate exceeded"))⟩
    (rangeOf 0 1000000000) [requestOf "A" "DescribeLogGroups"]
    (requestOf "B" "GetLogGroupFields") [requestOf "C" "StartQuery"] freshWorld
    { remote := (),
      calls := [Call.DescribeLogGroups { Limit := some 50, LogGroupNamePrefix := none }] }
    _
    ⟨[("A", { RefId := "A",
              Dataframes := [(fixtureDeps.MarshalArrow (data.NewFrame "logGroups"
                [data.NewField "logGroupName"
                  (.nullableString [some "group_a", some "group_b", some "group_c"])])).1] })]⟩
    (.plain "Rate exceeded") rfl rfl

/-- C4 as stated fails: in the batch `A: Foo`, `B: DescribeLogGroups` on a client
that fails, the handler of `A` raises no error, the handler of `B` fails with
the remote error, and yet the batch returns no error at all (and no response):
it ends at `A`. -/
theorem executeLogActions_first_failure_counterexample :
    (executeLogAction fixtureDeps
        ⟨failingClient (.aws (awserr.New "ThrottlingException" "Rate exceeded"))⟩
        ⟨rangeOf 0 1000000000, [requestOf "A" "Foo", requestOf "B" "DescribeLogGroups"]⟩
        (requestOf "A" "Foo") freshWorld).1 = .ret (none, none) ∧
      (executeLogAction fixtureDeps
        ⟨failingClient (.aws (awserr.New "ThrottlingException" "Rate exceeded"))⟩
        ⟨rangeOf 0 1000000000, [requestOf "A" "Foo", requestOf "B" "DescribeLogGroups"]⟩
        (requestOf "B" "DescribeLogGroups") freshWorld).1 =
          .ret (none, some (.aws (awserr.New "ThrottlingException" "Rate exceeded"))) ∧
      (executeLogActions fixtureDeps
        ⟨failingClient (.aws (awserr.New "ThrottlingException" "Rate exceeded"))⟩
        ⟨rangeOf 0 1000000000, [requestOf "A" "Foo", requestOf "B" "DescribeLogGroups"]⟩
        freshWorld).1 = .ret (none, none) :=
  ⟨rfl, rfl, rfl⟩

/-- Witness of C6 as amended: the batch `A: DescribeLogGroups`, `B: Foo`,
`C: StartQuery` on the test double: the batch returns no response and no error,
and the world it leaves holds the call of `A` only. -/
theorem executeLogActions_unknown_tag_witness :
    executeLogActions fixtureDeps ⟨FakeLogsClient⟩
        ⟨rangeOf 0 1000000000,
          [requestOf "A" "DescribeLogGroups"] ++
            requestOf "B" "Foo" :: [requestOf "C" "StartQuery"]⟩
        freshWorld =
      (.ret (none, none),
        { remote := (),
          calls := [Call.DescribeLogGroups { Limit := some 50, LogGroupNamePrefix := none }] }) :=
  (executeLogActions_unknown_tag fixtureDeps ⟨FakeLogsClient⟩
    (rangeOf 0 1000000000) [requestOf "A" "DescribeLogGroups"]
    (requestOf "B" "Foo") [requestOf "C" "StartQuery"] freshWorld
    { remote := (),
      calls := [Call.DescribeLogGroups { Limit := some 50, LogGroupNamePrefix := none }] }
    ⟨[("A", { RefId := "A",
              Dataframes := [(fixtureDeps.MarshalArrow (data.NewFrame "logGroups"
                [data.NewField "logGroupName"
                  (.nullableString [some "group_a", some "group_b", some "group_c"])])).1] })]⟩
    rfl (by decide)).2

/-- C6 as stated fails: in the batch `A: Foo`, `B: DescribeLogGroups` on the test
double, the handler of `B` alone returns the frame of the three groups, and yet
the batch returns no response, so no frame under `B`, and makes no client call:
`B` is not processed. -/
theorem executeLogActions_unknown_tag_counterexample :
    (executeLogAction fixtureDeps ⟨FakeLogsClient⟩
        ⟨rangeOf 0 1000000000, [requestOf "A" "Foo", requestOf "B" "DescribeLogGroups"]⟩
        (requestOf "B" "DescribeLogGroups") freshWorld).1 =
          .ret (some (data.NewFrame "logGroups"
            [data.NewField "logGroupName"
              (.nullableString [some "group_a", some "group_b", some "group_c"])]), none) ∧
      (executeLogActions fixtureDeps ⟨FakeLogsClient⟩
        ⟨rangeOf 0 1000000000, [requestOf "A" "Foo", requestOf "B" "DescribeLogGroups"]⟩
        freshWorld).1 = .ret (none, none) ∧
      (executeLogActions fixtureDeps ⟨FakeLogsClient⟩
        ⟨rangeOf 0 1000000000, [requestOf "A" "Foo", requestOf "B" "DescribeLogGroups"]⟩
        freshWorld).2.calls = [] :=
  ⟨rfl, rfl, rfl⟩

/-- Witness of C7: the batch `A: DescribeLogGroups`, `B: GetLogGroupFields`,
`C: StopQuery` on the test double: a response with the keys `A`, `B`, `C`, and
under `B` the one encoded frame of the handler of `B`. -/
theorem executeLogActions_all_succeed_witness :
    ∃ response : Response,
      (executeLogActions fixtureDeps ⟨FakeLogsClient⟩
        ⟨rangeOf 0 1000000000,
          [requestOf "A" "DescribeLogGroups", requestOf "B" "GetLogGroupFields",
            requestOf "C" "StopQuery"]⟩ freshWorld).1 = .ret (some response, none) ∧
        (∀ r, r ∈ response.Results.keys ↔ r ∈ ["A", "B", "C"]) ∧
        response.Results.get? "B" =
          some { RefId := "B",
                 Dataframes := [(fixtureDeps.MarshalArrow
                   { Name := "B", RefID := "B",
                     Fields := [
                       { Name := "name",
                         Values := .nullableString
                           [some "field_a", some "field_b", some "field_c"] },
                       { Name := "percent",
                         Values := .nullableInt64 [some 100, some 30, some 55] }] }).1] } :=
  match executeLogActions_all_succeed fixtureDeps ⟨FakeLogsClient⟩
    ⟨rangeOf 0 1000000000,
      [requestOf "A" "DescribeLogGroups", requestOf "B" "GetLogGroupFields",
        requestOf "C" "StopQuery"]⟩ freshWorld
    [ data.NewFrame "logGroups"
        [data.NewField "logGroupName"
          (.nullableString [some "group_a", some "group_b", some "group_c"])],
      { Name := "B", RefID := "B",
        Fields := [
          { Name := "name",
            Values := .nullableString [some "field_a", some "field_b", some "field_c"] },
          { Name := "percent", Values := .nullableInt64 [some 100, some 30, some 55] }] },
      data.NewFrame "StopQueryResponse" [data.NewField "success" (.bool [true])] ]
    rfl (fun _ _ => rfl) with
  | ⟨response, hrun, hkeys, _, hlast⟩ =>
    ⟨response, hrun, hkeys,
      hlast 1 (requestOf "B" "GetLogGroupFields") _ rfl rfl
        (fun j later hij hj => by
          match j, hij, hj with
          | 2, _, hj =>
            simp only [List.getElem?_cons_succ, List.getElem?_cons_zero,
              Option.some.injEq] at hj
            subst hj
            decide
          | j + 3, _, hj => simp at hj)⟩

end CloudWatch
